import Mathlib

/-!
Verification of the CCTV-Log client (idltd/CCTV-Log) against its
natural-language specification.

The development shallowly embeds the relevant JavaScript modules:

* `src/js/registry.js`  — proximity search with cache fallback (`nearby`,
  `_distFilter`, `_loadCache`, `_getLocal`, haversine `_dist`);
* `src/js/sar.js`       — the SAR letter generator (`generateLetter` and its
  formatting helpers);
* `src/js/contacts.js`  — the per-operator contact key (`operatorKey`);
* `src/js/log.js`       — the incident log (`add`, `update`, `get`) over an
  id-keyed store, plus the store mutations actually performed by
  `src/js/app.js` (capture save, letter regeneration, mark-sent, delete).

Conventions of the embedding:

* JavaScript numbers used as coordinates are modelled as rationals `ℚ`;
  where only the great-circle formula of `_dist` (floating-point `Math`
  trigonometry) is concerned, the model uses exact reals `ℝ`.  The
  filter/sort logic of the registry is stated generically over any
  linearly-ordered distance type, which covers both.
* JavaScript strings are Lean `String`s; `undefined`/missing fields are
  `Option`; the `x || y` idiom on strings (empty string is falsy) and the
  `x?.f` optional chain are modelled explicitly.
* `Array.prototype.sort` with comparator `(a, b) => a.distance - b.distance`
  is a stable ascending sort by distance; it is modelled by the stable
  `List.mergeSort`.
* Functions that can throw (`TypeError` on a property access of
  `undefined`, `new Error(...)`) return `Except String _`.
* The ambient clock (`new Date()`, `Date.now()`) and storage are passed
  explicitly (`JSDate` arguments, environment records).
-/

/-! ## Registry — `src/js/registry.js` -/

namespace Registry

/-- A camera record as held in the registry cache / local list: id,
coordinates, and whether it is a user-local (unsubmitted) entry
(`local: true` is set by `saveLocal`).  Payload fields (location
description, operator block) do not participate in the filtering logic and
are elided here. -/
structure Camera where
  id : String
  lat : ℚ
  lng : ℚ
  localFlag : Bool := false
deriving DecidableEq, Repr

/-- A result entry of `nearby`: the camera, plus the `distance` property
when one was attached (server rows and `_distFilter` output carry one;
user-local entries do not). -/
def Entry (α : Type) : Type := Camera × Option α

/-- Attach the computed distance, as `_distFilter` and the Supabase row
normalisation do. -/
def entryOfDist {α : Type} (p : Camera × α) : Entry α := (p.1, some p.2)

/-- The environment a `nearby` call runs in: the server-side table when the
registry is reachable (`none` = fetch throws / non-ok status), the raw
cache blob with its save time, the user-local camera list, and the current
time `Date.now()` in milliseconds. -/
structure Env where
  serverTable : Option (List Camera)
  cache : Option (List Camera × ℤ)
  localCams : List Camera
  now : ℤ

/-- `CACHE_TTL = 12 * 60 * 60 * 1000` (12 hours in milliseconds). -/
def CACHE_TTL : ℤ := 12 * 60 * 60 * 1000

/-- `_loadCache`: return the cached data unless absent or older than the
TTL. -/
def _loadCache (e : Env) : Option (List Camera) :=
  match e.cache with
  | none => none
  | some (data, time) => if e.now - time > CACHE_TTL then none else some data

/-- `_getLocal`: the user's own locally saved cameras; they carry no
`distance` property. -/
def _getLocal {α : Type} (e : Env) : List (Entry α) :=
  e.localCams.map (fun c => (c, (none : Option α)))

/-- `_distFilter`: attach a recomputed distance to every cached camera,
keep those within `radiusM`, and sort ascending by distance
(`sort((a, b) => a.distance - b.distance)`, a stable ascending sort).
The distance function is a parameter: in the source it is the
floating-point haversine `_dist`, whose exact-real model appears below. -/
def _distFilter {α : Type} [LinearOrder α] (dist : ℚ → ℚ → ℚ → ℚ → α)
    (cameras : List Camera) (lat lng : ℚ) (radiusM : α) : List (Camera × α) :=
  (((cameras.map (fun c => (c, dist lat lng c.lat c.lng))).filter
      (fun p => decide (p.2 ≤ radiusM))).mergeSort
    (fun a b => decide (a.2 ≤ b.2)))

/-- Modelled from the spec: the server-side geo query (`cameras_within`
RPC, Supabase/PostGIS, not part of this repository).  Per §4.1 the server
"performs the geo-filter server-side and returns already-bounded,
pre-sorted results": radius cutoff, ascending sort by distance. -/
def cameras_within {α : Type} [LinearOrder α] (dist : ℚ → ℚ → ℚ → ℚ → α)
    (table : List Camera) (lat lng : ℚ) (radiusM : α) : List (Camera × α) :=
  (((table.filter (fun c => decide (dist lat lng c.lat c.lng ≤ radiusM))).map
      (fun c => (c, dist lat lng c.lat c.lng))).mergeSort
    (fun a b => decide (a.2 ≤ b.2)))

/-- `_fetchFromSupabase`: `none` when the fetch throws or the response is
non-ok; otherwise the server's bounded, sorted rows. -/
def _fetchFromSupabase {α : Type} [LinearOrder α] (dist : ℚ → ℚ → ℚ → ℚ → α)
    (e : Env) (lat lng : ℚ) (radiusM : α) : Option (List (Camera × α)) :=
  e.serverTable.map (fun tbl => cameras_within dist tbl lat lng radiusM)

/-- `nearby(lat, lng, radiusM)`: try the server; on success return its rows
followed by the user-local entries.  On any failure fall back to the cache
(re-filtering locally with `_distFilter`) when a fresh one exists, else
return just the local entries.  The `_saveCache` write performed on the
success path does not affect the returned value and is elided. -/
def nearby {α : Type} [LinearOrder α] (dist : ℚ → ℚ → ℚ → ℚ → α)
    (e : Env) (lat lng : ℚ) (radiusM : α) : List (Entry α) :=
  match _fetchFromSupabase dist e lat lng radiusM with
  | some results => results.map entryOfDist ++ _getLocal e
  | none =>
    match _loadCache e with
    | some cached => (_distFilter dist cached lat lng radiusM).map entryOfDist ++ _getLocal e
    | none => _getLocal e

/-- The argument of `Math.atan2` in `_dist` (intermediate value `a` of the
source). -/
noncomputable def havA (lat1 lng1 lat2 lng2 : ℝ) : ℝ :=
  Real.sin ((lat2 - lat1) * Real.pi / 180 / 2) ^ 2
    + Real.cos (lat1 * Real.pi / 180) * Real.cos (lat2 * Real.pi / 180)
      * Real.sin ((lng2 - lng1) * Real.pi / 180 / 2) ^ 2

/-- `Math.atan2(y, x)` on the reals; only the `0 < x` branch is exercised
below, since `_dist` always calls it with non-negative arguments. -/
noncomputable def atan2 (y x : ℝ) : ℝ :=
  if 0 < x then Real.arctan (y / x)
  else if x < 0 ∧ 0 ≤ y then Real.arctan (y / x) + Real.pi
  else if x < 0 ∧ y < 0 then Real.arctan (y / x) - Real.pi
  else if x = 0 ∧ 0 < y then Real.pi / 2
  else if x = 0 ∧ y < 0 then -(Real.pi / 2)
  else 0

/-- `_dist` — the haversine great-circle distance of the source
(`R = 6371000` metres), over exact reals in place of IEEE doubles. -/
noncomputable def _dist (lat1 lng1 lat2 lng2 : ℝ) : ℝ :=
  6371000 * 2 * atan2 (Real.sqrt (havA lat1 lng1 lat2 lng2))
    (Real.sqrt (1 - havA lat1 lng1 lat2 lng2))

/-- `_dist` lifted to the rational coordinates of the camera records. -/
noncomputable def _distR (lat1 lng1 lat2 lng2 : ℚ) : ℝ :=
  _dist (lat1 : ℝ) (lng1 : ℝ) (lat2 : ℝ) (lng2 : ℝ)

end Registry

/-! ## Shared JavaScript-object idioms -/

namespace Model

/-- `x || y` for a string property that may be missing: `undefined` and the
empty string are falsy. -/
def jsOr (v : Option String) (d : String) : String :=
  match v with
  | none => d
  | some s => if s = "" then d else s

/-- Truthiness filter on an optional string property (`if (x) ...`). -/
def jsTruthy (v : Option String) : Option String :=
  match v with
  | none => none
  | some s => if s = "" then none else some s

/-- Naive substring test on the underlying character lists (used to state
which placeholder tokens appear in a generated letter). -/
def strContainsAux (needle : List Char) : List Char → Bool
  | [] => needle.isEmpty
  | c :: rest => needle.isPrefixOf (c :: rest) || strContainsAux needle rest

/-- `hay` contains `needle` as a substring. -/
def strContains (hay needle : String) : Bool :=
  strContainsAux needle.data hay.data

/-- The embedded operator block of a camera record (registry row fields
`operator_name`, `ico_reg`, `privacy_email`, `postal_address`; a stable
`id` when the registry supplies one). -/
structure OperatorInfo where
  id : Option String := none
  name : Option String := none
  ico_reg : Option String := none
  privacy_email : Option String := none
  postal_address : Option String := none
deriving DecidableEq, Repr

/-- The camera object as the letter generator and contact key see it. -/
structure CameraInfo where
  operator : Option OperatorInfo := none
  operatorName : Option String := none
  location_desc : Option String := none
deriving DecidableEq, Repr

end Model

/-! ## Contact key — `src/js/contacts.js` -/

namespace Contacts

/-- `[a-z0-9]`: the characters the slug keeps. -/
def isSlugChar (c : Char) : Bool :=
  ('a' ≤ c && c ≤ 'z') || ('0' ≤ c && c ≤ '9')

/-- ASCII `String.prototype.toLowerCase` (operator names in the claims are
ASCII). -/
def jsLowerChar (c : Char) : Char :=
  if 'A' ≤ c ∧ c ≤ 'Z' then Char.ofNat (c.toNat + 32) else c

/-- `.replace(/[^a-z0-9]+/g, '-')`, processed left to right: the flag
records whether the scan is inside a non-alphanumeric run, so that each
maximal run emits exactly one hyphen. -/
def collapseAux : Bool → List Char → List Char
  | _, [] => []
  | inRun, c :: rest =>
    if isSlugChar c then c :: collapseAux false rest
    else if inRun then collapseAux true rest
    else '-' :: collapseAux true rest

/-- `.replace(/[^a-z0-9]+/g, '-')`: every maximal run of
non-alphanumerics becomes a single hyphen. -/
def collapseRuns (l : List Char) : List Char := collapseAux false l

/-- The `^-` alternative of `.replace(/^-|-$/g, '')`: one leading hyphen is
removed. -/
def dropLeadDash (l : List Char) : List Char :=
  match l with
  | [] => []
  | c :: t => if c = '-' then t else c :: t

/-- The `-$` alternative of `.replace(/^-|-$/g, '')`: one trailing hyphen
is removed. -/
def dropTrailDash : List Char → List Char
  | [] => []
  | [c] => if c = '-' then [] else [c]
  | c :: d :: t => c :: dropTrailDash (d :: t)

/-- Strip one leading and one trailing hyphen (after run-collapsing there
is at most one of each). -/
def stripEdges (l : List Char) : List Char :=
  dropTrailDash (dropLeadDash l)

/-- The name-derived slug:
`name.toLowerCase().replace(/[^a-z0-9]+/g, '-').replace(/^-|-$/g, '') || 'unknown'`. -/
def slugOfName (name : String) : String :=
  let r := stripEdges (collapseRuns (name.data.map jsLowerChar))
  if r.isEmpty then "unknown" else String.mk r

/-- `operatorKey(camera)`: prefer a truthy `camera?.operator?.id`, else the
slug of `camera?.operator?.name || camera?.operatorName || ''`. -/
def operatorKey (camera : Option Model.CameraInfo) : String :=
  match Model.jsTruthy ((camera.bind (fun c => c.operator)).bind (fun o => o.id)) with
  | some v => v
  | none =>
    slugOfName (Model.jsOr ((camera.bind (fun c => c.operator)).bind (fun o => o.name))
      (Model.jsOr (camera.bind (fun c => c.operatorName)) ""))

/-- Well-formedness of a derived contact key, as the spec words it:
nonempty, lower-alphanumeric besides the separator, runs collapsed (no
double separator anywhere), no leading or trailing separator. -/
def SlugWF (s : String) : Prop :=
  s ≠ "" ∧ (∀ c ∈ s.data, isSlugChar c = true ∨ c = '-')
    ∧ s.data.head? ≠ some '-' ∧ s.data.getLast? ≠ some '-'
    ∧ s.data.Chain' (fun a b => ¬(a = '-' ∧ b = '-'))

end Contacts

/-! ## Letter generator — `src/js/sar.js` -/

namespace Sar

/-- A JavaScript `Date`: milliseconds since the Unix epoch.  The `en-GB`
locale formatters below render in timezone UTC, which is what the spec's
example exercises (UK civil time on 2024-03-01 is GMT = UTC). -/
structure JSDate where
  ms : ℤ
deriving DecidableEq, Repr

/-- `addMinutes(d, m) = new Date(d.getTime() + m * 60000)`. -/
def addMinutes (d : JSDate) (m : ℤ) : JSDate := ⟨d.ms + m * 60000⟩

/-- Proleptic-Gregorian (year, month, day) from a count of days since
1970-01-01 (the standard era-based civil-from-days computation). -/
def civilFromDays (z0 : ℤ) : ℤ × ℤ × ℤ :=
  let z := z0 + 719468
  let era := z.fdiv 146097
  let doe := z - era * 146097
  let yoe := (doe - doe.fdiv 1460 + doe.fdiv 36524 - doe.fdiv 146096).fdiv 365
  let y := yoe + era * 400
  let doy := doe - (365 * yoe + yoe.fdiv 4 - yoe.fdiv 100)
  let mp := (5 * doy + 2).fdiv 153
  let d := doy - (153 * mp + 2).fdiv 5 + 1
  let m := mp + (if mp < 10 then 3 else -9)
  (if m ≤ 2 then y + 1 else y, m, d)

/-- `en-GB` long month names. -/
def monthName (m : ℤ) : String :=
  if m = 1 then "January" else if m = 2 then "February" else if m = 3 then "March"
  else if m = 4 then "April" else if m = 5 then "May" else if m = 6 then "June"
  else if m = 7 then "July" else if m = 8 then "August" else if m = 9 then "September"
  else if m = 10 then "October" else if m = 11 then "November" else "December"

/-- `en-GB` long weekday name of a day count since the epoch (1970-01-01
was a Thursday). -/
def weekdayName (z : ℤ) : String :=
  let w := (z + 4).emod 7
  if w = 0 then "Sunday" else if w = 1 then "Monday" else if w = 2 then "Tuesday"
  else if w = 3 then "Wednesday" else if w = 4 then "Thursday"
  else if w = 5 then "Friday" else "Saturday"

/-- Two-digit zero-padded rendering of an hour/minute value. -/
def pad2 (n : ℤ) : String :=
  if n < 10 then "0" ++ n.toNat.repr else n.toNat.repr

/-- Whole days since the epoch of a `Date`. -/
def daysOf (d : JSDate) : ℤ := d.ms.fdiv 86400000

/-- `fmtTime`: `toLocaleTimeString('en-GB', { hour: '2-digit',
minute: '2-digit' })` — `HH:MM`, 24-hour clock. -/
def fmtTime (d : JSDate) : String :=
  pad2 ((d.ms.fdiv 3600000).emod 24) ++ ":" ++ pad2 ((d.ms.fdiv 60000).emod 60)

/-- `fmtDate`: `toLocaleDateString('en-GB', { day: 'numeric', month:
'long', year: 'numeric' })` — e.g. `1 March 2024`. -/
def fmtDate (d : JSDate) : String :=
  match civilFromDays (daysOf d) with
  | (y, m, dd) => dd.toNat.repr ++ " " ++ monthName m ++ " " ++ y.toNat.repr

/-- `fmtDateShort`: as `fmtDate` plus the long weekday — e.g.
`Friday 1 March 2024`. -/
def fmtDateShort (d : JSDate) : String :=
  weekdayName (daysOf d) ++ " " ++ fmtDate d

/-- The user profile as stored (`storage.getProfile()`). -/
structure Profile where
  name : Option String := none
  address : Option String := none
  email : Option String := none
deriving DecidableEq, Repr

/-- The reverse-geocoded location object. -/
structure LocationInfo where
  display : Option String := none
  road : Option String := none
  town : Option String := none
deriving DecidableEq, Repr

/-- The argument object of `generateLetter({ profile, camera, location,
photoTime, incidentTime, description })`; an entirely empty input is the
record with every field `none`. -/
structure LetterArgs where
  profile : Option Profile := none
  camera : Option Model.CameraInfo := none
  location : Option LocationInfo := none
  photoTime : Option JSDate := none
  incidentTime : Option JSDate := none
  description : Option String := none
deriving DecidableEq, Repr

/-- `incidentTime || photoTime || null` (a `Date` object is always
truthy). -/
def effectiveIncident (args : LetterArgs) : Option JSDate :=
  match args.incidentTime with
  | some t => some t
  | none => args.photoTime

/-- `incident ? fmtDateShort(incident) : '[DATE]'`. -/
def incidentDateStr (incident : Option JSDate) : String :=
  match incident with
  | some d => fmtDateShort d
  | none => "[DATE]"

/-- `incident ? fmtTime(incident) : '[TIME]'`. -/
def incidentTimeStr (incident : Option JSDate) : String :=
  match incident with
  | some d => fmtTime d
  | none => "[TIME]"

/-- `incident ? fmtTime(addMinutes(incident, -30)) : '[FROM]'`. -/
def fromTimeStr (incident : Option JSDate) : String :=
  match incident with
  | some d => fmtTime (addMinutes d (-30))
  | none => "[FROM]"

/-- `incident ? fmtTime(addMinutes(incident, 30)) : '[TO]'`. -/
def toTimeStr (incident : Option JSDate) : String :=
  match incident with
  | some d => fmtTime (addMinutes d 30)
  | none => "[TO]"

/-- `camera?.operator?.ico_reg ? 'ICO Registration No: …' : ''`. -/
def icoLineStr (camera : Option Model.CameraInfo) : String :=
  match Model.jsTruthy ((camera.bind (fun c => c.operator)).bind (fun o => o.ico_reg)) with
  | some v => "ICO Registration No: " ++ v
  | none => ""

/-- `camera?.location_desc || location?.display || '[CAMERA LOCATION]'`. -/
def camDescStr (camera : Option Model.CameraInfo) (location : Option LocationInfo) : String :=
  Model.jsOr (camera.bind (fun c => c.location_desc))
    (Model.jsOr (location.bind (fun l => l.display)) "[CAMERA LOCATION]")

/-- JavaScript `String.prototype.trim` whitespace (the subset that can
occur in this app's inputs). -/
def isJsSpace (c : Char) : Bool :=
  c = ' ' || c = '\t' || c = '\n' || c = '\r'

/-- `description?.trim()`. -/
def jsTrim (s : String) : String :=
  String.mk (((s.data.dropWhile isJsSpace).reverse.dropWhile isJsSpace).reverse)

/-- `description?.trim() || '[Please describe yourself here — …]'`. -/
def descStr (description : Option String) : String :=
  Model.jsOr (description.map jsTrim)
    "[Please describe yourself here — height, build, clothing worn at the time]"

/-- The letter template of `generateLetter` (backquoted template literal of
the source), as a function of the interpolated bindings. -/
def letterBody (name email today opName icoLn opAddr camD iTime iDate fromT toT desc : String) :
    String :=
  name ++ "\n" ++
  email ++ "\n" ++
  "\n" ++
  today ++ "\n" ++
  "\n" ++
  "\n" ++
  "The Data Controller\n" ++
  opName ++ "\n" ++
  (if icoLn = "" then "" else icoLn ++ "\n") ++
  opAddr ++ "\n" ++
  "\n" ++
  "\n" ++
  "Dear Data Controller,\n" ++
  "\n" ++
  "Re: Subject Access Request — CCTV Footage\n" ++
  "    Article 15 UK GDPR / Section 45 Data Protection Act 2018\n" ++
  "\n" ++
  "EVIDENCE OF IDENTITY AND PRESENCE\n" ++
  "──────────────────────────────────\n" ++
  "At approximately " ++ iTime ++ " on " ++ iDate ++ " I photographed\n" ++
  "the camera at " ++ camD ++ " from the public area where I was standing.\n" ++
  "\n" ++
  "That photograph — with its embedded timestamp and GPS coordinates —\n" ++
  "constitutes evidence both of my physical presence at that location at\n" ++
  "that time and of my identity as the data subject in the footage. I am,\n" ++
  "by definition, the person your camera recorded.\n" ++
  "\n" ++
  "Under Article 12(6) UK GDPR, a controller may only request additional\n" ++
  "identifying information where there are reasonable doubts about the\n" ++
  "identity of the data subject. No such doubt exists: the footage and my\n" ++
  "photograph are of the same person, at the same place, at the same time.\n" ++
  "\n" ++
  "I am not required to provide — and will not be providing — any identity\n" ++
  "documents, driving licence, passport, or other credential. Any demand\n" ++
  "for such documents as a condition of processing this request would\n" ++
  "constitute a breach of Article 12(6) UK GDPR, which I would report to\n" ++
  "the Information Commissioner\x27s Office.\n" ++
  "\n" ++
  "I therefore request, pursuant to Article 15 UK GDPR and Section 45 of\n" ++
  "the Data Protection Act 2018, a copy of all CCTV footage in which I\n" ++
  "appear at the location and time specified below.\n" ++
  "\n" ++
  "FOOTAGE DETAILS\n" ++
  "───────────────\n" ++
  "  Camera location : " ++ camD ++ "\n" ++
  "  Date            : " ++ iDate ++ "\n" ++
  "  Time window     : " ++ fromT ++ " – " ++ toT ++ " (approximately)\n" ++
  "  My appearance   : " ++ desc ++ "\n" ++
  "\n" ++
  "YOUR OBLIGATIONS\n" ++
  "────────────────\n" ++
  "You are required to:\n" ++
  "\n" ++
  "  • Respond within one calendar month of receiving this request\n" ++
  "  • Provide the data free of charge (unless the request is manifestly\n" ++
  "    unfounded or excessive)\n" ++
  "  • Supply the footage in a commonly used, machine-readable format\n" ++
  "  • If the footage no longer exists or has been overwritten, confirm\n" ++
  "    this in writing\n" ++
  "  • If you are not the data controller responsible for this camera,\n" ++
  "    forward this request to the correct controller and inform me of\n" ++
  "    their identity\n" ++
  "\n" ++
  "The exemptions in Schedule 2 of the Data Protection Act 2018 are\n" ++
  "unlikely to apply to a specific, evidence-backed request by a data\n" ++
  "subject for footage of themselves.\n" ++
  "\n" ++
  "Please acknowledge receipt in writing and contact me at the email above\n" ++
  "if you require any further information to locate the relevant footage.\n" ++
  "\n" ++
  "If you fail to respond within the statutory period, or refuse this\n" ++
  "request without adequate legal justification, I reserve the right to\n" ++
  "lodge a complaint with the Information Commissioner\x27s Office\n" ++
  "(ico.org.uk) and to apply to the court for an order compelling\n" ++
  "disclosure under Section 167 of the Data Protection Act 2018.\n" ++
  "\n" ++
  "Yours faithfully,\n" ++
  "\n" ++
  name

/-- `generateLetter`.  The ambient clock (`new Date()` for the `today`
line) is the explicit `nowDate` argument.  When `profile` is absent the
source reads `profile.name` on `undefined` and throws a `TypeError`; every
other field is accessed through an optional chain or defaulted. -/
def generateLetter (nowDate : JSDate) (args : LetterArgs) : Except String String :=
  match args.profile with
  | none => Except.error "TypeError: Cannot read properties of undefined (reading name)"
  | some profile =>
    Except.ok (letterBody
      (Model.jsOr profile.name "[YOUR NAME]")
      (Model.jsOr profile.email "[YOUR EMAIL]")
      (fmtDate nowDate)
      (Model.jsOr ((args.camera.bind (fun c => c.operator)).bind (fun o => o.name))
        "[DATA CONTROLLER NAME]")
      (icoLineStr args.camera)
      (Model.jsOr ((args.camera.bind (fun c => c.operator)).bind (fun o => o.postal_address))
        "[DATA CONTROLLER ADDRESS]")
      (camDescStr args.camera args.location)
      (incidentTimeStr (effectiveIncident args))
      (incidentDateStr (effectiveIncident args))
      (fromTimeStr (effectiveIncident args))
      (toTimeStr (effectiveIncident args))
      (descStr args.description))

/-- The world a page-level call runs in: the clock and the local storage
area.  `generateLetter` reads the clock for its date line and performs no
network or storage operation (its body above contains none), so the
effectful wrapper returns the world unchanged. -/
structure World where
  now : JSDate
  localStorageArea : List (String × String)
deriving DecidableEq, Repr

/-- `generateLetter` as an effectful call against a `World`. -/
def generateLetterRun (w : World) (args : LetterArgs) : Except String String × World :=
  (generateLetter w.now args, w)

/-- The letter text of a non-throwing result (empty on a throw). -/
def letterOf (r : Except String String) : String :=
  match r with
  | Except.ok s => s
  | Except.error _ => ""

/-- The capture instant of the spec's example scenario,
`2024-03-01T14:32:00Z`. -/
def exampleCapture : JSDate := ⟨1709303520000⟩

/-- The example scenario's argument object: a photo captured at
`exampleCapture`, no explicit incident time. -/
def exampleArgs : LetterArgs :=
  { profile := some {}, photoTime := some exampleCapture }

/-- The entirely empty argument object `{}`. -/
def emptyArgs : LetterArgs := {}

/-- An argument object with a present-but-empty profile and nothing else. -/
def emptyProfileArgs : LetterArgs := { profile := some ({} : Profile) }

end Sar

/-! ## Incident log — `src/js/log.js` (and its use by `src/js/app.js`) -/

namespace Log

/-- A stored incident record, with the fields and defaults of
`incidentLog.add`. -/
structure Incident where
  id : String
  capturedAt : String
  thumbnail : Option String := none
  lat : Option ℚ := none
  lng : Option ℚ := none
  locationDisplay : String := ""
  camera : Option Model.CameraInfo := none
  incidentDate : String := ""
  incidentTime : String := ""
  selfDescription : String := ""
  status : String
  sarSentAt : Option String := none
  letterText : Option String := none
  subjectLine : Option String := none
deriving DecidableEq, Repr

/-- A partial incident object: exactly the keys present on a
caller-supplied JavaScript object (the argument of `add`, the `changes` of
`update`).  A present key carries the caller's value (which may itself be
`null`, hence the nested `Option` on nullable fields). -/
structure Patch where
  id : Option String := none
  capturedAt : Option String := none
  thumbnail : Option (Option String) := none
  lat : Option (Option ℚ) := none
  lng : Option (Option ℚ) := none
  locationDisplay : Option String := none
  camera : Option (Option Model.CameraInfo) := none
  incidentDate : Option String := none
  incidentTime : Option String := none
  selfDescription : Option String := none
  status : Option String := none
  sarSentAt : Option (Option String) := none
  letterText : Option (Option String) := none
  subjectLine : Option (Option String) := none
deriving DecidableEq, Repr

/-- `store.put(entry)` on the `incidents` object store (keyPath `id`):
replace the record carrying `entry.id`, or insert a new one. -/
def put (s : List Incident) (e : Incident) : List Incident :=
  if s.any (fun x => decide (x.id = e.id)) then
    s.map (fun x => if x.id = e.id then e else x)
  else s ++ [e]

/-- `incidentLog.get(id)`: the record with that id, if any. -/
def get (s : List Incident) (id : String) : Option Incident :=
  s.find? (fun x => decide (x.id = id))

/-- The entry built by `incidentLog.add`:
`{ id: crypto.randomUUID(), capturedAt: new Date().toISOString(), …other
defaults…, ...incident }` — the caller's object is spread last, so every
key it carries overrides the corresponding default.  `genId` is the
generated UUID and `nowIso` the current time's ISO string, passed
explicitly. -/
def spreadAdd (genId nowIso : String) (p : Patch) : Incident :=
  { id := p.id.getD genId
    capturedAt := p.capturedAt.getD nowIso
    thumbnail := p.thumbnail.getD none
    lat := p.lat.getD none
    lng := p.lng.getD none
    locationDisplay := p.locationDisplay.getD ""
    camera := p.camera.getD none
    incidentDate := p.incidentDate.getD ""
    incidentTime := p.incidentTime.getD ""
    selfDescription := p.selfDescription.getD ""
    status := p.status.getD "captured"
    sarSentAt := p.sarSentAt.getD none
    letterText := p.letterText.getD none
    subjectLine := p.subjectLine.getD none }

/-- `incidentLog.add(incident)`: put the spread entry; returns the new
store and `entry.id`. -/
def add (genId nowIso : String) (s : List Incident) (p : Patch) : List Incident × String :=
  (put s (spreadAdd genId nowIso p), (spreadAdd genId nowIso p).id)

/-- `{ ...existing, ...changes }`: a present key of `changes` overrides the
existing field, every other field is preserved. -/
def mergePatch (e : Incident) (c : Patch) : Incident :=
  { id := c.id.getD e.id
    capturedAt := c.capturedAt.getD e.capturedAt
    thumbnail := c.thumbnail.getD e.thumbnail
    lat := c.lat.getD e.lat
    lng := c.lng.getD e.lng
    locationDisplay := c.locationDisplay.getD e.locationDisplay
    camera := c.camera.getD e.camera
    incidentDate := c.incidentDate.getD e.incidentDate
    incidentTime := c.incidentTime.getD e.incidentTime
    selfDescription := c.selfDescription.getD e.selfDescription
    status := c.status.getD e.status
    sarSentAt := c.sarSentAt.getD e.sarSentAt
    letterText := c.letterText.getD e.letterText
    subjectLine := c.subjectLine.getD e.subjectLine }

/-- `incidentLog.update(id, changes)`: throw when no record carries `id`
(`new Error('Incident … not found')`), else put the merged record. -/
def update (s : List Incident) (id : String) (c : Patch) : Except String (List Incident) :=
  match get s id with
  | none => Except.error ("Incident " ++ id ++ " not found")
  | some existing => Except.ok (put s (mergePatch existing c))

/-- `incidentLog.remove(id)`. -/
def removeId (s : List Incident) (id : String) : List Incident :=
  s.filter (fun x => !decide (x.id = id))

/-- The `changes` object of `buildAndShowLetter`'s letter regeneration:
`{ letterText, subjectLine }`. -/
def letterPatch (lt sl : String) : Patch :=
  { letterText := some (some lt), subjectLine := some (some sl) }

/-- The `changes` object of `markIncidentSent`'s update branch:
`{ status: 'sent', sarSentAt: …, letterText, subjectLine }`. -/
def markSentPatch (t lt sl : String) : Patch :=
  { status := some "sent", sarSentAt := some (some t)
    letterText := some (some lt), subjectLine := some (some sl) }

/-- The store mutations `src/js/app.js` actually performs on the incident
store.  The two `add` calls (`saveCaptureToLog`, the immediate-send branch
of `markIncidentSent`) pass no `id` and an explicit `status`; the UUID
freshness that `crypto.randomUUID()` is relied on for is the `hfresh`
hypothesis (spec §4.3: "generation must guarantee uniqueness"). -/
inductive Step : List Incident → List Incident → Prop where
  | addCaptured (s : List Incident) (genId nowIso : String) (p : Patch)
      (hid : p.id = none) (hst : p.status = some "captured") (hsar : p.sarSentAt = none)
      (hfresh : get s genId = none) :
      Step s (add genId nowIso s p).1
  | addSent (s : List Incident) (genId nowIso t : String) (p : Patch)
      (hid : p.id = none) (hst : p.status = some "sent") (hsar : p.sarSentAt = some (some t))
      (hfresh : get s genId = none) :
      Step s (add genId nowIso s p).1
  | regenLetter (s : List Incident) (id lt sl : String) (s' : List Incident)
      (h : update s id (letterPatch lt sl) = Except.ok s') :
      Step s s'
  | markSent (s : List Incident) (id t lt sl : String) (s' : List Incident)
      (h : update s id (markSentPatch t lt sl) = Except.ok s') :
      Step s s'
  | removeIncident (s : List Incident) (id : String) :
      Step s (removeId s id)

/-- Stores reachable from the empty store through the app's operations. -/
inductive Reachable : List Incident → Prop where
  | nil : Reachable []
  | step {s s' : List Incident} : Reachable s → Step s s' → Reachable s'

/-- A well-formed store: ids are pairwise distinct (spec §4.3) and every
status is `captured` or `sent`. -/
def Inv (s : List Incident) : Prop :=
  (s.map (fun i => i.id)).Nodup ∧ ∀ i ∈ s, i.status = "captured" ∨ i.status = "sent"

/-- The one-way status order: unchanged, or `captured` to `sent`. -/
def statusAdvance (a b : String) : Prop :=
  a = b ∨ (a = "captured" ∧ b = "sent")

end Log

/-! ## Concrete instances used by witnesses and counterexamples -/

namespace Registry

/-- A user-local camera at the north pole — roughly 10,000 km from the
query point `(0, 0)` below. -/
def farCam : Camera := { id := "local-1", lat := 90, lng := 0, localFlag := true }

/-- Offline (fetch throws), no cache, one far-away local camera. -/
def farEnv : Env := { serverTable := none, cache := none, localCams := [farCam], now := 0 }

/-- Registry reachable, zero rows in range, no cache, no local entries. -/
def zeroRowsEnv : Env := { serverTable := some [], cache := none, localCams := [], now := 0 }

/-- Registry unreachable, no cache, no local entries. -/
def offlineEnv : Env := { serverTable := none, cache := none, localCams := [], now := 0 }

/-- A concrete rational-valued distance function (its value is irrelevant
to the branches exercised below, which compute no distance). -/
def distQ : ℚ → ℚ → ℚ → ℚ → ℚ := fun _ _ _ _ => 0

/-- A camera and stale-cache environment for the witness of the
cache-fallback decomposition. -/
def nearCam : Camera := { id := "cam-2", lat := 0, lng := 0 }

/-- Offline with a fresh cache holding `nearCam`: the fallback path
recomputes and filters locally. -/
def cachedEnv : Env :=
  { serverTable := none, cache := some ([nearCam], 0), localCams := [farCam], now := 1000 }

end Registry

namespace Contacts

/-- `{ operator: { name: 'Tesco Stores Ltd' } }`. -/
def tescoCam1 : Model.CameraInfo := { operator := some { name := some "Tesco Stores Ltd" } }

/-- `{ operator: { name: 'TESCO STORES LTD!!' } }`. -/
def tescoCam2 : Model.CameraInfo := { operator := some { name := some "TESCO STORES LTD!!" } }

/-- A camera whose operator block carries no name at all. -/
def noNameCam : Model.CameraInfo := { operator := some ({} : Model.OperatorInfo) }

/-- A camera with a stable registry operator id. -/
def idCam : Model.CameraInfo := { operator := some { id := some "tesco", name := some "Tesco Stores Ltd" } }

end Contacts

namespace Log

/-- A concrete captured incident. -/
def incA : Incident := { id := "a", capturedAt := "2024-03-01T14:32:00Z", status := "captured" }

/-- `changes` carrying an `id` key — the update the original claim C9
quantifies over but the merge-by-put semantics does not honour in place. -/
def movePatch : Patch := { id := some "b" }

/-- The caller object of `markIncidentSent`'s immediate-send `add` branch
(no prior incident): `status: 'sent'`, `sarSentAt` set. -/
def sentAddPatch : Patch :=
  { capturedAt := some "2024-03-01T14:32:00Z", status := some "sent"
    sarSentAt := some (some "2024-03-01T15:00:00Z")
    letterText := some (some "letter"), subjectLine := some (some "subject") }

/-- A capture-flow caller object (`saveCaptureToLog`): explicit
`status: 'captured'`, no id, no `sarSentAt`. -/
def capturedAddPatch : Patch :=
  { capturedAt := some "2024-03-01T14:32:00Z", status := some "captured" }

end Log

namespace Sar

/-- The letter generated for the present-but-empty profile with everything
else absent, dated at the example capture instant. -/
def emptyProfileLetter : String := letterOf (generateLetter exampleCapture emptyProfileArgs)

/-- The letter generated for the example scenario (photo at
`2024-03-01T14:32:00Z`, no explicit incident time). -/
def exampleLetter : String := letterOf (generateLetter exampleCapture exampleArgs)

end Sar

/-! ## Helper lemmas — registry -/

namespace Registry

/-- The cache-fallback filter and the spec's server-side reference filter
are the same function: filtering commutes with attaching the distance, and
both sort ascending by the same key with the same stable sort. -/
theorem distFilter_eq_cameras_within {α : Type} [LinearOrder α]
    (dist : ℚ → ℚ → ℚ → ℚ → α) (cameras : List Camera) (lat lng : ℚ) (radiusM : α) :
    _distFilter dist cameras lat lng radiusM = cameras_within dist cameras lat lng radiusM := by
  unfold _distFilter cameras_within
  rw [List.filter_map]
  rfl

/-- Every element of `cameras_within` is within the radius, carries its
recomputed distance, and the list is pairwise non-decreasing in distance. -/
theorem cameras_within_spec {α : Type} [LinearOrder α]
    (dist : ℚ → ℚ → ℚ → ℚ → α) (table : List Camera) (lat lng : ℚ) (radiusM : α) :
    (∀ p ∈ cameras_within dist table lat lng radiusM,
        dist lat lng p.1.lat p.1.lng ≤ radiusM ∧ p.2 = dist lat lng p.1.lat p.1.lng) ∧
      (cameras_within dist table lat lng radiusM).Pairwise (fun a b => a.2 ≤ b.2) := by
  constructor
  · intro p hp
    rw [cameras_within, List.mem_mergeSort, List.mem_map] at hp
    obtain ⟨c, hc, hpc⟩ := hp
    rw [List.mem_filter] at hc
    subst hpc
    exact ⟨of_decide_eq_true hc.2, rfl⟩
  · have h := @List.sorted_mergeSort (Camera × α)
      (fun a b => decide (a.2 ≤ b.2))
      (fun a b c hab hbc =>
        decide_eq_true (le_trans (of_decide_eq_true hab) (of_decide_eq_true hbc)))
      (fun a b => by
        rcases le_total a.2 b.2 with h | h
        · simp [decide_eq_true h]
        · simp [decide_eq_true h])
      ((table.filter (fun c => decide (dist lat lng c.lat c.lng ≤ radiusM))).map
        (fun c => (c, dist lat lng c.lat c.lng)))
    exact h.imp (fun hab => of_decide_eq_true hab)

/-- `nearby` on the reachable path. -/
theorem nearby_server {α : Type} [LinearOrder α] (dist : ℚ → ℚ → ℚ → ℚ → α)
    (e : Env) (lat lng : ℚ) (radiusM : α) (results : List (Camera × α))
    (h : _fetchFromSupabase dist e lat lng radiusM = some results) :
    nearby dist e lat lng radiusM = results.map entryOfDist ++ _getLocal e := by
  unfold nearby
  rw [h]

/-- `nearby` on the cache-fallback path. -/
theorem nearby_cache {α : Type} [LinearOrder α] (dist : ℚ → ℚ → ℚ → ℚ → α)
    (e : Env) (lat lng : ℚ) (radiusM : α) (cached : List Camera)
    (hs : _fetchFromSupabase dist e lat lng radiusM = none)
    (hc : _loadCache e = some cached) :
    nearby dist e lat lng radiusM
      = (_distFilter dist cached lat lng radiusM).map entryOfDist ++ _getLocal e := by
  unfold nearby
  rw [hs, hc]

/-- `nearby` when neither the server nor a usable cache is available. -/
theorem nearby_offline {α : Type} [LinearOrder α] (dist : ℚ → ℚ → ℚ → ℚ → α)
    (e : Env) (lat lng : ℚ) (radiusM : α)
    (hs : _fetchFromSupabase dist e lat lng radiusM = none)
    (hc : _loadCache e = none) :
    nearby dist e lat lng radiusM = _getLocal e := by
  unfold nearby
  rw [hs, hc]

end Registry

namespace Registry

/-- The haversine intermediate value at query `(0,0)`, camera `(90,0)`. -/
theorem havA_pole : havA 0 0 90 0 = 1 / 2 := by
  unfold havA
  have e1 : ((90 : ℝ) - 0) * Real.pi / 180 / 2 = Real.pi / 4 := by ring
  have e2 : ((0 : ℝ) - 0) * Real.pi / 180 / 2 = 0 := by ring
  rw [e1, e2, Real.sin_zero, Real.sin_pi_div_four]
  rw [div_pow, Real.sq_sqrt (by norm_num : (0 : ℝ) ≤ 2)]
  norm_num

/-- The true haversine distance from `(0,0)` to the north pole far exceeds
a 300 m radius. -/
theorem dist_pole_far : (300 : ℝ) < _dist 0 0 90 0 := by
  unfold _dist
  rw [havA_pole]
  have h2 : (1 : ℝ) - 1 / 2 = 1 / 2 := by norm_num
  rw [h2]
  have hpos : (0 : ℝ) < Real.sqrt (1 / 2) := Real.sqrt_pos.mpr (by norm_num)
  rw [atan2, if_pos hpos, div_self (ne_of_gt hpos), Real.arctan_one]
  nlinarith [Real.pi_gt_three]

/-- The same bound through the rational-coordinate lifting. -/
theorem distR_pole_far : (300 : ℝ) < _distR 0 0 90 0 := by
  unfold _distR
  have h0 : ((0 : ℚ) : ℝ) = 0 := by norm_num
  have h90 : ((90 : ℚ) : ℝ) = 90 := by norm_num
  rw [h0, h90]
  exact dist_pole_far

end Registry

/-! ## Claim C1 -/

/-- C1: for every list of camera records, every query coordinate and every
radius, the cache-fallback filter of `registry.js` (`_distFilter`:
recompute the distance per camera, keep those with distance ≤ radius, sort
ascending) returns exactly the same list — same membership, same
ordering — as the spec's server-path reference filter (radius cutoff,
ascending sort) on the same underlying data, for any choice of distance
function common to both (in particular the haversine `_dist`). -/
theorem C1_filter_equivalence {α : Type} [LinearOrder α] (dist : ℚ → ℚ → ℚ → ℚ → α)
    (cameras : List Registry.Camera) (lat lng : ℚ) (radiusM : α) :
    Registry._distFilter dist cameras lat lng radiusM
      = Registry.cameras_within dist cameras lat lng radiusM :=
  Registry.distFilter_eq_cameras_within dist cameras lat lng radiusM

/-! ## Claim C2 -/

/-- C2 (corrected): `nearby` returns a registry-derived prefix — every
element within the radius by the recomputed distance, carrying that
distance, pairwise non-decreasing — followed by the user-local entries,
which are appended regardless of distance.  The original claim fails on
the appended local entries (see the counterexample). -/
theorem C2_nearby_prefix {α : Type} [LinearOrder α] (dist : ℚ → ℚ → ℚ → ℚ → α)
    (e : Registry.Env) (lat lng : ℚ) (radiusM : α) :
    ∃ pre : List (Registry.Camera × α),
      Registry.nearby dist e lat lng radiusM
          = pre.map Registry.entryOfDist ++ Registry._getLocal e ∧
        (∀ p ∈ pre, dist lat lng p.1.lat p.1.lng ≤ radiusM
            ∧ p.2 = dist lat lng p.1.lat p.1.lng) ∧
        pre.Pairwise (fun a b => a.2 ≤ b.2) := by
  cases hs : Registry._fetchFromSupabase dist e lat lng radiusM with
  | some results =>
    refine ⟨results, Registry.nearby_server dist e lat lng radiusM results hs, ?_, ?_⟩
    · obtain ⟨tbl, -, hres⟩ : ∃ tbl, e.serverTable = some tbl
          ∧ results = Registry.cameras_within dist tbl lat lng radiusM := by
        unfold Registry._fetchFromSupabase at hs
        cases h2 : e.serverTable with
        | none => rw [h2] at hs; exact Option.noConfusion hs
        | some tbl =>
          rw [h2] at hs
          exact ⟨tbl, rfl, (Option.some_inj.mp hs).symm⟩
      rw [hres]
      exact (Registry.cameras_within_spec dist tbl lat lng radiusM).1
    · obtain ⟨tbl, -, hres⟩ : ∃ tbl, e.serverTable = some tbl
          ∧ results = Registry.cameras_within dist tbl lat lng radiusM := by
        unfold Registry._fetchFromSupabase at hs
        cases h2 : e.serverTable with
        | none => rw [h2] at hs; exact Option.noConfusion hs
        | some tbl =>
          rw [h2] at hs
          exact ⟨tbl, rfl, (Option.some_inj.mp hs).symm⟩
      rw [hres]
      exact (Registry.cameras_within_spec dist tbl lat lng radiusM).2
  | none =>
    cases hc : Registry._loadCache e with
    | some cached =>
      refine ⟨Registry._distFilter dist cached lat lng radiusM,
        Registry.nearby_cache dist e lat lng radiusM cached hs hc, ?_, ?_⟩
      · rw [Registry.distFilter_eq_cameras_within]
        exact (Registry.cameras_within_spec dist cached lat lng radiusM).1
      · rw [Registry.distFilter_eq_cameras_within]
        exact (Registry.cameras_within_spec dist cached lat lng radiusM).2
    | none =>
      exact ⟨[], by
        rw [Registry.nearby_offline dist e lat lng radiusM hs hc]
        simp, by simp, by simp⟩

/-- C2, counterexample to the claim as stated: offline with no cache and a
user-local camera at the north pole, queried from `(0,0)` with radius
300 m, `nearby` returns that camera although its haversine distance
exceeds 300 — local entries are appended regardless of distance. -/
theorem C2_counterexample :
    (Registry.farCam, (none : Option ℝ))
        ∈ Registry.nearby Registry._distR Registry.farEnv 0 0 300 ∧
      (300 : ℝ) < Registry._distR 0 0 Registry.farCam.lat Registry.farCam.lng := by
  constructor
  · have h : Registry.nearby Registry._distR Registry.farEnv 0 0 300
        = [(Registry.farCam, (none : Option ℝ))] := rfl
    rw [h]
    exact List.mem_singleton_self _
  · exact Registry.distR_pole_far

/-! ## Claim C6 -/

/-- C6 (corrected): a lookup that succeeds with zero in-radius rows and no
local entries returns the empty list — a normal value, not an error — and
a lookup with the registry unreachable and no usable cache returns the
same empty list (`nearby`'s catch-all swallows the failure and falls back
to `_getLocal`).  The two outcomes coincide, so the caller cannot
distinguish them from the returned value, contrary to the original
claim. -/
theorem C6_zero_rows_vs_offline {α : Type} [LinearOrder α] (dist : ℚ → ℚ → ℚ → ℚ → α)
    (e1 e2 : Registry.Env) (lat lng : ℚ) (radiusM : α) (tbl : List Registry.Camera) :
    (e1.serverTable = some tbl →
        Registry.cameras_within dist tbl lat lng radiusM = [] →
        e1.localCams = [] →
        Registry.nearby dist e1 lat lng radiusM = []) ∧
      (e2.serverTable = none → Registry._loadCache e2 = none → e2.localCams = [] →
        Registry.nearby dist e2 lat lng radiusM = []) := by
  constructor
  · intro h1 h2 h3
    have hf : Registry._fetchFromSupabase dist e1 lat lng radiusM = some [] := by
      unfold Registry._fetchFromSupabase
      rw [h1]
      simp [h2]
    rw [Registry.nearby_server dist e1 lat lng radiusM [] hf]
    simp [Registry._getLocal, h3]
  · intro h1 h2 h3
    have hf : Registry._fetchFromSupabase dist e2 lat lng radiusM = none := by
      unfold Registry._fetchFromSupabase
      rw [h1]
      rfl
    rw [Registry.nearby_offline dist e2 lat lng radiusM hf h2]
    simp [Registry._getLocal, h3]

/-- C6, counterexample to the distinguishability part of the claim as
stated, at the spec's example query `(51.5, -0.1, 300)`: the zero-rows
outcome and the unreachable-no-cache outcome are the identical value `[]`,
so no caller can tell them apart. -/
theorem C6_counterexample :
    Registry.nearby Registry.distQ Registry.zeroRowsEnv 51.5 (-0.1) 300 = [] ∧
      Registry.nearby Registry.distQ Registry.offlineEnv 51.5 (-0.1) 300 = [] := by
  constructor
  · have hf : Registry._fetchFromSupabase Registry.distQ Registry.zeroRowsEnv 51.5 (-0.1) 300
        = some [] := by
      unfold Registry._fetchFromSupabase Registry.zeroRowsEnv
      simp [Registry.cameras_within]
    rw [Registry.nearby_server Registry.distQ Registry.zeroRowsEnv 51.5 (-0.1) 300 [] hf]
    rfl
  · rfl

/-- C6, witness for the corrected theorem at concrete environments. -/
theorem C6_witness :
    Registry.nearby Registry.distQ Registry.zeroRowsEnv 0 0 300 = [] ∧
      Registry.nearby Registry.distQ Registry.offlineEnv 0 0 300 = [] := by
  have h := C6_zero_rows_vs_offline Registry.distQ Registry.zeroRowsEnv Registry.offlineEnv
    0 0 300 []
  exact ⟨h.1 rfl (by simp [Registry.cameras_within]) rfl, h.2 rfl rfl rfl⟩

/-! ## Helper lemmas — contact key -/

namespace Contacts

/-- Every character the collapse emits is alphanumeric or the separator. -/
theorem mem_collapseAux (l : List Char) : ∀ (b : Bool), ∀ c ∈ collapseAux b l,
    isSlugChar c = true ∨ c = '-' := by
  induction l with
  | nil => intro b c hc; simp [collapseAux] at hc
  | cons x xs ih =>
    intro b c hc
    by_cases hx : isSlugChar x
    · rw [collapseAux, if_pos hx] at hc
      rcases List.mem_cons.mp hc with h | h
      · exact Or.inl (h ▸ hx)
      · exact ih false c h
    · cases b with
      | true =>
        rw [collapseAux, if_neg hx, if_pos rfl] at hc
        exact ih true c hc
      | false =>
        rw [collapseAux, if_neg hx] at hc
        simp only [Bool.false_eq_true, if_false] at hc
        rcases List.mem_cons.mp hc with h | h
        · exact Or.inr h
        · exact ih true c h

/-- Inside a run no separator has just been emitted: the output of
`collapseAux true` never starts with the separator. -/
theorem head_collapseAux_true (l : List Char) :
    ∀ y, (collapseAux true l).head? = some y → isSlugChar y = true := by
  induction l with
  | nil => intro y h; simp [collapseAux] at h
  | cons x xs ih =>
    intro y h
    by_cases hx : isSlugChar x
    · rw [collapseAux, if_pos hx] at h
      simp only [List.head?_cons, Option.some_inj] at h
      exact h ▸ hx
    · rw [collapseAux, if_neg hx, if_pos rfl] at h
      exact ih y h

/-- The collapsed list never contains two adjacent separators. -/
theorem chain_collapseAux (l : List Char) : ∀ b : Bool,
    (collapseAux b l).Chain' (fun a c => ¬(a = '-' ∧ c = '-')) := by
  induction l with
  | nil => intro b; simp [collapseAux]
  | cons x xs ih =>
    intro b
    by_cases hx : isSlugChar x
    · rw [collapseAux, if_pos hx]
      refine List.chain'_cons'.mpr ⟨?_, ih false⟩
      intro y _ hcon
      rw [hcon.1] at hx
      exact absurd hx (by decide)
    · cases b with
      | true =>
        rw [collapseAux, if_neg hx, if_pos rfl]
        exact ih true
      | false =>
        rw [collapseAux, if_neg hx]
        simp only [Bool.false_eq_true, if_false]
        refine List.chain'_cons'.mpr ⟨?_, ih true⟩
        intro y hy hcon
        have := head_collapseAux_true xs y hy
        rw [hcon.2] at this
        exact absurd this (by decide)

/-- Dropping the lead separator keeps membership. -/
theorem mem_dropLeadDash (l : List Char) : ∀ c ∈ dropLeadDash l, c ∈ l := by
  intro c hc
  cases l with
  | nil => simp [dropLeadDash] at hc
  | cons x t =>
    rw [dropLeadDash] at hc
    by_cases hx : x = '-'
    · rw [if_pos hx] at hc; exact List.mem_cons_of_mem x hc
    · rwa [if_neg hx] at hc

/-- Dropping the lead separator keeps the no-double-separator chain. -/
theorem chain_dropLeadDash (l : List Char) (R : Char → Char → Prop)
    (h : l.Chain' R) : (dropLeadDash l).Chain' R := by
  cases l with
  | nil => simp [dropLeadDash]
  | cons x t =>
    rw [dropLeadDash]
    by_cases hx : x = '-'
    · rw [if_pos hx]; exact (List.chain'_cons'.mp h).2
    · rwa [if_neg hx]

/-- After dropping the lead separator of a chain-valid list, the head is
not the separator. -/
theorem head_dropLeadDash (l : List Char)
    (h : l.Chain' (fun a c => ¬(a = '-' ∧ c = '-'))) :
    ∀ y, (dropLeadDash l).head? = some y → y ≠ '-' := by
  intro y hy
  cases l with
  | nil => simp [dropLeadDash] at hy
  | cons x t =>
    rw [dropLeadDash] at hy
    by_cases hx : x = '-'
    · rw [if_pos hx] at hy
      intro hcon
      exact (List.chain'_cons'.mp h).1 y hy ⟨hx, hcon⟩
    · rw [if_neg hx] at hy
      simp only [List.head?_cons, Option.some_inj] at hy
      exact hy ▸ hx

/-- Dropping the trailing separator keeps membership. -/
theorem mem_dropTrailDash (l : List Char) : ∀ c ∈ dropTrailDash l, c ∈ l := by
  induction l with
  | nil => intro c hc; simp [dropTrailDash] at hc
  | cons x xs ih =>
    intro c hc
    cases xs with
    | nil =>
      rw [dropTrailDash] at hc
      by_cases hx : x = '-'
      · rw [if_pos hx] at hc; simp at hc
      · rw [if_neg hx] at hc; exact hc
    | cons d t =>
      rw [dropTrailDash] at hc
      rcases List.mem_cons.mp hc with h | h
      · exact h ▸ List.mem_cons_self x (d :: t)
      · exact List.mem_cons_of_mem x (ih c h)

/-- Dropping the trailing separator leaves the head untouched (or empties
the list). -/
theorem head_dropTrailDash (l : List Char) :
    dropTrailDash l = [] ∨ (dropTrailDash l).head? = l.head? := by
  cases l with
  | nil => exact Or.inl rfl
  | cons x xs =>
    cases xs with
    | nil =>
      by_cases hx : x = '-'
      · exact Or.inl (by rw [dropTrailDash, if_pos hx])
      · exact Or.inr (by rw [dropTrailDash, if_neg hx])
    | cons d t => exact Or.inr (by rw [dropTrailDash]; rfl)

/-- A trail-stripped list is empty only when the input was empty or the
lone separator. -/
theorem dropTrailDash_eq_nil (l : List Char) (h : dropTrailDash l = []) :
    l = [] ∨ l = ['-'] := by
  cases l with
  | nil => exact Or.inl rfl
  | cons x xs =>
    cases xs with
    | nil =>
      by_cases hx : x = '-'
      · exact Or.inr (by rw [hx])
      · rw [dropTrailDash, if_neg hx] at h; exact absurd h (by simp)
    | cons d t => rw [dropTrailDash] at h; exact absurd h (by simp)

/-- Dropping the trailing separator keeps the chain condition. -/
theorem chain_dropTrailDash (l : List Char) (R : Char → Char → Prop)
    (h : l.Chain' R) : (dropTrailDash l).Chain' R := by
  induction l with
  | nil => simp [dropTrailDash]
  | cons x xs ih =>
    cases xs with
    | nil =>
      by_cases hx : x = '-'
      · rw [dropTrailDash, if_pos hx]; exact List.chain'_nil
      · rw [dropTrailDash, if_neg hx]; exact List.chain'_singleton x
    | cons d t =>
      rw [dropTrailDash]
      refine List.chain'_cons'.mpr ⟨?_, ih (List.chain'_cons'.mp h).2⟩
      intro y hy
      rcases head_dropTrailDash (d :: t) with hnil | hhead
      · rw [hnil] at hy; simp at hy
      · rw [hhead] at hy
        have hdy : d = y := by simpa using hy
        exact hdy ▸ (List.chain'_cons'.mp h).1 d rfl

/-- On a chain-valid list the trail-stripped list does not end in the
separator. -/
theorem getLast_dropTrailDash (l : List Char)
    (h : l.Chain' (fun a c => ¬(a = '-' ∧ c = '-'))) :
    ∀ y, (dropTrailDash l).getLast? = some y → y ≠ '-' := by
  induction l with
  | nil => intro y hy; simp [dropTrailDash] at hy
  | cons x xs ih =>
    intro y hy
    cases xs with
    | nil =>
      by_cases hx : x = '-'
      · rw [dropTrailDash, if_pos hx] at hy; simp at hy
      · rw [dropTrailDash, if_neg hx] at hy
        simp only [List.getLast?_singleton, Option.some_inj] at hy
        exact hy ▸ hx
    | cons d t =>
      rw [dropTrailDash] at hy
      cases hdt : dropTrailDash (d :: t) with
      | nil =>
        rcases dropTrailDash_eq_nil (d :: t) hdt with h1 | h1
        · exact absurd h1 (by simp)
        · rw [hdt] at hy
          simp only [List.getLast?_singleton, Option.some_inj] at hy
          intro hcon
          have hd : d = '-' := by
            have := congrArg List.head? h1
            simpa using this
          have ht : t = [] := by
            have := congrArg List.tail h1
            simpa using this
          exact (List.chain'_cons'.mp h).1 d rfl ⟨hy.trans hcon, hd⟩
      | cons z zs =>
        rw [hdt] at hy
        rw [List.getLast?_cons_cons] at hy
        exact ih (List.chain'_cons'.mp h).2 y (hdt ▸ hy)

end Contacts

namespace Contacts

/-- The derived slug is well-formed for every input name. -/
theorem slug_wf (name : String) : SlugWF (slugOfName name) := by
  show SlugWF (if (stripEdges (collapseRuns (name.data.map jsLowerChar))).isEmpty
    then "unknown" else String.mk (stripEdges (collapseRuns (name.data.map jsLowerChar))))
  set m := collapseRuns (name.data.map jsLowerChar) with hm
  by_cases hr : (stripEdges m).isEmpty
  · rw [if_pos hr]
    refine ⟨by decide, by decide, by decide, by decide, ?_⟩
    show List.Chain' (fun a c => ¬(a = '-' ∧ c = '-')) ['u','n','k','n','o','w','n']
    simp [List.chain'_cons]
  · rw [if_neg hr]
    have hchm : m.Chain' (fun a c => ¬(a = '-' ∧ c = '-')) := chain_collapseAux _ false
    have hch1 : (dropLeadDash m).Chain' (fun a c => ¬(a = '-' ∧ c = '-')) :=
      chain_dropLeadDash m _ hchm
    have hrne : stripEdges m ≠ [] := by
      intro hcon
      exact hr (by rw [hcon]; rfl)
    refine ⟨?_, ?_, ?_, ?_, ?_⟩
    · intro hcon
      exact hrne (congrArg String.data hcon)
    · intro c hc
      exact mem_collapseAux (name.data.map jsLowerChar) false c
        (mem_dropLeadDash m c (mem_dropTrailDash (dropLeadDash m) c hc))
    · intro hcon
      rcases head_dropTrailDash (dropLeadDash m) with hnil | hhead
      · exact hrne hnil
      · have := head_dropLeadDash m hchm '-' (by rw [← hhead]; exact hcon)
        exact this rfl
    · intro hcon
      exact getLast_dropTrailDash (dropLeadDash m) hch1 '-' hcon rfl
    · exact chain_dropTrailDash (dropLeadDash m) _ hch1

end Contacts

/-! ## Claim C7 -/

/-- C7: `operatorKey` prefers a (truthy) stable registry operator id; with
none, it maps the operator name to a slug — lowercased, every run of
non-alphanumerics collapsed to a single separator, one leading/trailing
separator stripped, the empty result replaced by the sentinel `unknown`.
In particular `Tesco Stores Ltd` and `TESCO STORES LTD!!` share the key
`tesco-stores-ltd`, a camera with no operator name (or no camera at all)
keys to `unknown`, and every derived key is well-formed: nonempty, over
`[a-z0-9-]`, with no leading, trailing or doubled separator. -/
theorem C7_operator_key :
    (∀ (c : Model.CameraInfo) (v : String),
        (c.operator.bind (fun o => o.id)) = some v → v ≠ "" →
        Contacts.operatorKey (some c) = v) ∧
      Contacts.operatorKey (some Contacts.tescoCam1)
          = Contacts.operatorKey (some Contacts.tescoCam2) ∧
      Contacts.operatorKey (some Contacts.tescoCam1) = "tesco-stores-ltd" ∧
      Contacts.operatorKey (some Contacts.noNameCam) = "unknown" ∧
      Contacts.operatorKey none = "unknown" ∧
      (∀ name : String, Contacts.SlugWF (Contacts.slugOfName name)) := by
  refine ⟨?_, by decide, by decide, by decide, by decide, Contacts.slug_wf⟩
  intro c v h hv
  unfold Contacts.operatorKey
  have hs0 : ((some c).bind (fun c => c.operator)).bind (fun o => o.id) = some v := by
    simpa using h
  rw [hs0]
  simp [Model.jsTruthy, hv]

/-- C7, witness: a camera carrying the registry operator id `tesco` keys
to that id. -/
theorem C7_witness : Contacts.operatorKey (some Contacts.idCam) = "tesco" :=
  C7_operator_key.1 Contacts.idCam "tesco" rfl (by decide)

/-! ## Helper lemmas — incident log -/

namespace Log

/-- The record `get` finds carries the requested id. -/
theorem get_some_id {s : List Incident} {id : String} {ex : Incident}
    (h : get s id = some ex) : ex.id = id := by
  unfold get at h
  simpa using List.find?_some h

/-- The record `get` finds is in the store. -/
theorem get_some_mem {s : List Incident} {id : String} {ex : Incident}
    (h : get s id = some ex) : ex ∈ s := by
  unfold get at h
  exact List.mem_of_find?_eq_some h

/-- A fresh-id `put` appends. -/
theorem put_fresh {s : List Incident} {e : Incident}
    (h : get s e.id = none) : put s e = s ++ [e] := by
  unfold get at h
  unfold put
  rw [if_neg]
  intro hany
  obtain ⟨x, hx, hpx⟩ := List.any_eq_true.mp hany
  exact (List.find?_eq_none.mp h x hx) hpx

/-- A `put` of a record whose id is already present replaces in place. -/
theorem put_replace {s : List Incident} {e : Incident} {ex : Incident}
    (hex : ex ∈ s) (hid : ex.id = e.id) :
    put s e = s.map (fun x => if x.id = e.id then e else x) := by
  unfold put
  rw [if_pos (List.any_eq_true.mpr ⟨ex, hex, decide_eq_true hid⟩)]

/-- After replacing the `id`-keyed record by `m` (with `m.id = id`), `get
id` finds `m`, provided some record carried `id`. -/
theorem get_map_replace_self {s : List Incident} {id : String} {ex m : Incident}
    (hm : m.id = id) (hex : get s id = some ex) :
    get (s.map (fun x => if x.id = id then m else x)) id = some m := by
  induction s with
  | nil => simp [get] at hex
  | cons y ys ih =>
    unfold get at hex ⊢
    by_cases hy : y.id = id
    · simp [List.map_cons, hy, List.find?_cons, hm]
    · rw [List.find?_cons] at hex
      rw [decide_eq_false hy] at hex
      rw [List.map_cons, if_neg hy, List.find?_cons, decide_eq_false hy]
      exact ih hex

/-- Replacing the `id`-keyed record does not change any other lookup. -/
theorem get_map_replace_other {s : List Incident} {id j : String} {m : Incident}
    (hm : m.id = id) (hne : j ≠ id) :
    get (s.map (fun x => if x.id = id then m else x)) j = get s j := by
  induction s with
  | nil => rfl
  | cons y ys ih =>
    unfold get at ih ⊢
    by_cases hy : y.id = id
    · have hmj : ¬(m.id = j) := fun h => hne (h.symm.trans hm)
      have hyj : ¬(y.id = j) := fun h => hne (h.symm.trans hy)
      rw [List.map_cons, if_pos hy, List.find?_cons, List.find?_cons,
        decide_eq_false hmj, decide_eq_false hyj]
      exact ih
    · rw [List.map_cons, if_neg hy, List.find?_cons, List.find?_cons]
      by_cases hyj : y.id = j
      · rw [decide_eq_true hyj]
      · rw [decide_eq_false hyj]
        exact ih

/-- Replacing a record by one with the same id leaves the id sequence of
the store unchanged. -/
theorem map_id_replace {s : List Incident} {id : String} {m : Incident}
    (hm : m.id = id) :
    (s.map (fun x => if x.id = id then m else x)).map (fun i => i.id)
      = s.map (fun i => i.id) := by
  rw [List.map_map]
  refine List.map_congr_left ?_
  intro x _
  by_cases hx : x.id = id
  · simp [Function.comp, hx, hm]
  · simp [Function.comp, hx]

/-- Characterisation of a successful `update`. -/
theorem update_ok_iff {s : List Incident} {id : String} {c : Patch} {s' : List Incident} :
    update s id c = Except.ok s'
      ↔ ∃ ex, get s id = some ex ∧ s' = put s (mergePatch ex c) := by
  unfold update
  cases hg : get s id with
  | none => simp
  | some ex =>
    constructor
    · intro h
      exact ⟨ex, rfl, (Except.ok.inj h).symm⟩
    · rintro ⟨ex', hex', rfl⟩
      obtain rfl : ex' = ex := (Option.some_inj.mp hex').symm
      rfl

/-- Two records of a well-formed store sharing an id are the same
record. -/
theorem inv_unique {s : List Incident} (hnd : (s.map (fun i => i.id)).Nodup)
    {i j : Incident} (hi : i ∈ s) (hj : j ∈ s) (h : i.id = j.id) : i = j :=
  List.inj_on_of_nodup_map hnd hi hj h

end Log

namespace Log

/-- An `update` whose changes carry no `id`, no `capturedAt`, and a status
key that is absent or `sent` — the shape of every update the app
performs — preserves the store invariant, keeps each record's id and
capture timestamp, and only advances statuses. -/
theorem update_step {s : List Incident} {id : String} {c : Patch} {s' : List Incident}
    (hcid : c.id = none) (hccap : c.capturedAt = none)
    (hcst : c.status = none ∨ c.status = some "sent")
    (hup : update s id c = Except.ok s') (hinv : Inv s) :
    Inv s' ∧ ∀ i ∈ s, ∀ i' ∈ s', i'.id = i.id →
      i'.capturedAt = i.capturedAt ∧ statusAdvance i.status i'.status := by
  obtain ⟨ex, hex, rfl⟩ := update_ok_iff.mp hup
  have hexid : ex.id = id := get_some_id hex
  have hexmem : ex ∈ s := get_some_mem hex
  set m := mergePatch ex c with hmdef
  have hmid : m.id = id := by
    rw [hmdef]
    show c.id.getD ex.id = id
    rw [hcid]
    exact hexid
  have hmcap : m.capturedAt = ex.capturedAt := by
    rw [hmdef]
    show c.capturedAt.getD ex.capturedAt = ex.capturedAt
    rw [hccap]
    rfl
  have hput : put s m = s.map (fun x => if x.id = id then m else x) := by
    rw [put_replace hexmem (hexid.trans hmid.symm), hmid]
  constructor
  · rw [hput]
    refine ⟨?_, ?_⟩
    · rw [map_id_replace hmid]
      exact hinv.1
    · intro i' hi'
      obtain ⟨x, hx, rfl⟩ := List.mem_map.mp hi'
      by_cases hxid : x.id = id
      · rw [if_pos hxid]
        rcases hcst with h | h
        · have hms : m.status = ex.status := by
            rw [hmdef]
            show c.status.getD ex.status = ex.status
            rw [h]
            rfl
          rw [hms]
          exact hinv.2 ex hexmem
        · have hms : m.status = "sent" := by
            rw [hmdef]
            show c.status.getD ex.status = "sent"
            rw [h]
            rfl
          rw [hms]
          exact Or.inr rfl
      · rw [if_neg hxid]
        exact hinv.2 x hx
  · intro i hi i' hi' hid'
    rw [hput] at hi'
    obtain ⟨x, hx, rfl⟩ := List.mem_map.mp hi'
    have hgid : (if x.id = id then m else x).id = x.id := by
      by_cases hxid : x.id = id
      · rw [if_pos hxid, hmid, hxid]
      · rw [if_neg hxid]
    have hxi : x = i := inv_unique hinv.1 hx hi (hgid ▸ hid')
    subst hxi
    by_cases hxid : x.id = id
    · rw [if_pos hxid]
      have hxex : x = ex := inv_unique hinv.1 hx hexmem (by rw [hxid, hexid])
      refine ⟨by rw [hmcap, ← hxex], ?_⟩
      rcases hcst with h | h
      · have hms : m.status = ex.status := by
          rw [hmdef]
          show c.status.getD ex.status = ex.status
          rw [h]
          rfl
        exact Or.inl (by rw [hms, ← hxex])
      · have hms : m.status = "sent" := by
          rw [hmdef]
          show c.status.getD ex.status = "sent"
          rw [h]
          rfl
        rcases hinv.2 x hx with hcap | hsent
        · exact Or.inr ⟨hcap, hms⟩
        · exact Or.inl (by rw [hms, hsent])
    · rw [if_neg hxid]
      exact ⟨rfl, Or.inl rfl⟩

/-- An `add` with a caller object that carries no `id` and an explicit
app-supplied status, under a fresh generated id, preserves the invariant
and leaves every existing record untouched. -/
theorem add_inv {s : List Incident} {genId nowIso : String} {p : Patch}
    (hid : p.id = none) (hsg : p.status = some "captured" ∨ p.status = some "sent")
    (hfresh : get s genId = none) (hinv : Inv s) :
    Inv (add genId nowIso s p).1 ∧ ∀ i ∈ s, ∀ i' ∈ (add genId nowIso s p).1,
      i'.id = i.id → i'.capturedAt = i.capturedAt ∧ statusAdvance i.status i'.status := by
  set e := spreadAdd genId nowIso p with he
  have heid : e.id = genId := by
    rw [he]
    show p.id.getD genId = genId
    rw [hid]
    rfl
  have hputf : put s e = s ++ [e] := put_fresh (by rw [heid]; exact hfresh)
  have hest : e.status = "captured" ∨ e.status = "sent" := by
    rcases hsg with h | h
    · exact Or.inl (by rw [he]; show p.status.getD "captured" = "captured"; rw [h]; rfl)
    · exact Or.inr (by rw [he]; show p.status.getD "captured" = "sent"; rw [h]; rfl)
  have hfresh' : ∀ x ∈ s, ¬(x.id = genId) := by
    intro x hx
    have h0 : List.find? (fun x => decide (x.id = genId)) s = none := hfresh
    have := List.find?_eq_none.mp h0 x hx
    simpa using this
  have hedef : (add genId nowIso s p).1 = s ++ [e] := by
    show put s (spreadAdd genId nowIso p) = s ++ [e]
    rw [← he, hputf]
  rw [hedef]
  constructor
  · constructor
    · rw [List.map_append, List.nodup_append]
      refine ⟨hinv.1, List.nodup_singleton _, ?_⟩
      intro a ha hb
      simp only [List.map_cons, List.map_nil, List.mem_singleton] at hb
      obtain ⟨x, hx, hxa⟩ := List.mem_map.mp ha
      exact hfresh' x hx (by rw [hxa, hb, heid])
    · intro i hi
      rcases List.mem_append.mp hi with h | h
      · exact hinv.2 i h
      · rw [List.mem_singleton.mp h]
        exact hest
  · intro i hi i' hi' hid'
    rcases List.mem_append.mp hi' with h | h
    · have : i' = i := inv_unique hinv.1 h hi hid'
      subst this
      exact ⟨rfl, Or.inl rfl⟩
    · exfalso
      rw [List.mem_singleton.mp h] at hid'
      exact hfresh' i hi (by rw [← hid', heid])

/-- Deleting by id preserves the invariant and leaves the surviving
records untouched. -/
theorem remove_inv {s : List Incident} {id : String} (hinv : Inv s) :
    Inv (removeId s id) ∧ ∀ i ∈ s, ∀ i' ∈ removeId s id,
      i'.id = i.id → i'.capturedAt = i.capturedAt ∧ statusAdvance i.status i'.status := by
  have hsub : List.Sublist (removeId s id) s := List.filter_sublist s
  constructor
  · constructor
    · exact List.Nodup.sublist (hsub.map (fun i => i.id)) hinv.1
    · intro i hi
      exact hinv.2 i (hsub.mem hi)
  · intro i hi i' hi' hid'
    have : i' = i := inv_unique hinv.1 (hsub.mem hi') hi hid'
    subst this
    exact ⟨rfl, Or.inl rfl⟩

/-- Every app-level store mutation preserves the invariant; across a step,
a record matched by id keeps its capture timestamp and only advances its
status. -/
theorem step_inv {s s' : List Incident} (hst : Step s s') (hinv : Inv s) :
    Inv s' ∧ ∀ i ∈ s, ∀ i' ∈ s', i'.id = i.id →
      i'.capturedAt = i.capturedAt ∧ statusAdvance i.status i'.status := by
  cases hst with
  | addCaptured genId nowIso p hid hstt hsar hfresh =>
    exact add_inv hid (Or.inl hstt) hfresh hinv
  | addSent genId nowIso t p hid hstt hsar hfresh =>
    exact add_inv hid (Or.inr hstt) hfresh hinv
  | regenLetter id lt sl s2 h =>
    exact update_step rfl rfl (Or.inl rfl) h hinv
  | markSent id t lt sl s2 h =>
    exact update_step rfl rfl (Or.inr rfl) h hinv
  | removeIncident id =>
    exact remove_inv hinv

/-- Every reachable store satisfies the invariant. -/
theorem reachable_inv {s : List Incident} (h : Reachable s) : Inv s := by
  induction h with
  | nil =>
    refine ⟨List.nodup_nil, ?_⟩
    intro i hi
    simp at hi
  | step _ hst ih =>
    exact (step_inv hst ih).1

end Log

/-! ## Claim C4 -/

/-- C4 (corrected): `add` yields status `captured` whenever the caller's
object carries no `status` key (the spread `{...defaults, ...incident}`
otherwise honours the caller's value — see the counterexample); a
`markSent`-equivalent update produces status `sent` with a non-null
`sarSentAt` while keeping the id and the capture timestamp; every store
reachable through the app's operations is well-formed; and across every
app-level step a record matched by id keeps its capture timestamp and its
status only advances `captured → sent`, never reverting. -/
theorem C4_lifecycle :
    (∀ (genId nowIso : String) (p : Log.Patch), p.status = none →
        (Log.spreadAdd genId nowIso p).status = "captured") ∧
      (∀ (e : Log.Incident) (t lt sl : String),
        (Log.mergePatch e (Log.markSentPatch t lt sl)).status = "sent" ∧
        (Log.mergePatch e (Log.markSentPatch t lt sl)).sarSentAt = some t ∧
        (Log.mergePatch e (Log.markSentPatch t lt sl)).id = e.id ∧
        (Log.mergePatch e (Log.markSentPatch t lt sl)).capturedAt = e.capturedAt) ∧
      (∀ s : List Log.Incident, Log.Reachable s → Log.Inv s) ∧
      (∀ (s s' : List Log.Incident), Log.Step s s' → Log.Inv s →
        ∀ i ∈ s, ∀ i' ∈ s', i'.id = i.id →
          i'.capturedAt = i.capturedAt ∧ Log.statusAdvance i.status i'.status) := by
  refine ⟨?_, ?_, fun s h => Log.reachable_inv h,
    fun s s' hst hinv => (Log.step_inv hst hinv).2⟩
  · intro genId nowIso p h
    show p.status.getD "captured" = "captured"
    rw [h]
    rfl
  · intro e t lt sl
    exact ⟨rfl, rfl, rfl, rfl⟩

/-- C4, counterexample to "add always yields status `captured`": the
caller object of `markIncidentSent`'s immediate-send branch carries
`status: 'sent'`, which the spread honours. -/
theorem C4_counterexample :
    (Log.spreadAdd "uuid-1" "2024-03-01T14:32:00Z" Log.sentAddPatch).status = "sent"
      ∧ ("sent" : String) ≠ "captured" :=
  ⟨rfl, by decide⟩

/-- C4, witness: the theorem applied at an id-free patch, a concrete
record, and the store reached by one capture-save step. -/
theorem C4_witness :
    (Log.spreadAdd "uuid-0" "2024-01-01T00:00:00Z" ({} : Log.Patch)).status = "captured" ∧
      (Log.mergePatch Log.incA (Log.markSentPatch "2024-03-01T15:00:00Z" "L" "S")).status
          = "sent" ∧
      Log.Inv [Log.incA] := by
  refine ⟨C4_lifecycle.1 "uuid-0" "2024-01-01T00:00:00Z" {} rfl,
    (C4_lifecycle.2.1 Log.incA "2024-03-01T15:00:00Z" "L" "S").1, ?_⟩
  have hstep : Log.Step []
      (Log.add "a" "2024-03-01T14:32:00Z" [] Log.capturedAddPatch).1 :=
    Log.Step.addCaptured [] "a" "2024-03-01T14:32:00Z" Log.capturedAddPatch rfl rfl rfl rfl
  have heq : (Log.add "a" "2024-03-01T14:32:00Z" [] Log.capturedAddPatch).1
      = [Log.incA] := rfl
  exact C4_lifecycle.2.2.1 [Log.incA]
    (heq ▸ Log.Reachable.step Log.Reachable.nil hstep)

/-! ## Claim C9 -/

/-- C9 (corrected): an `update` for an id not in the store raises
`Incident <id> not found` (no store is produced, so the store is
unchanged); an `update` for a present id whose changes carry no `id` key
replaces the record in place — the updated record is the field-wise merge,
every other id resolves as before — and the merge semantics replaces
exactly the listed fields and preserves every other field.  Changes
carrying an `id` key escape this contract (see the counterexample). -/
theorem C9_update :
    (∀ (s : List Log.Incident) (id : String) (c : Log.Patch),
        Log.get s id = none →
        Log.update s id c = Except.error ("Incident " ++ id ++ " not found")) ∧
      (∀ (s : List Log.Incident) (id : String) (c : Log.Patch) (ex : Log.Incident),
        Log.get s id = some ex → c.id = none →
        Log.update s id c = Except.ok (Log.put s (Log.mergePatch ex c)) ∧
          Log.get (Log.put s (Log.mergePatch ex c)) id = some (Log.mergePatch ex c) ∧
          ∀ j, j ≠ id → Log.get (Log.put s (Log.mergePatch ex c)) j = Log.get s j) ∧
      (∀ (e : Log.Incident) (c : Log.Patch),
        (Log.mergePatch e c).id = c.id.getD e.id ∧
        (Log.mergePatch e c).capturedAt = c.capturedAt.getD e.capturedAt ∧
        (Log.mergePatch e c).thumbnail = c.thumbnail.getD e.thumbnail ∧
        (Log.mergePatch e c).lat = c.lat.getD e.lat ∧
        (Log.mergePatch e c).lng = c.lng.getD e.lng ∧
        (Log.mergePatch e c).locationDisplay = c.locationDisplay.getD e.locationDisplay ∧
        (Log.mergePatch e c).camera = c.camera.getD e.camera ∧
        (Log.mergePatch e c).incidentDate = c.incidentDate.getD e.incidentDate ∧
        (Log.mergePatch e c).incidentTime = c.incidentTime.getD e.incidentTime ∧
        (Log.mergePatch e c).selfDescription = c.selfDescription.getD e.selfDescription ∧
        (Log.mergePatch e c).status = c.status.getD e.status ∧
        (Log.mergePatch e c).sarSentAt = c.sarSentAt.getD e.sarSentAt ∧
        (Log.mergePatch e c).letterText = c.letterText.getD e.letterText ∧
        (Log.mergePatch e c).subjectLine = c.subjectLine.getD e.subjectLine) := by
  refine ⟨?_, ?_, ?_⟩
  · intro s id c h
    unfold Log.update
    rw [h]
  · intro s id c ex hex hcid
    have hmid : (Log.mergePatch ex c).id = id := by
      show c.id.getD ex.id = id
      rw [hcid]
      exact Log.get_some_id hex
    have hput : Log.put s (Log.mergePatch ex c)
        = s.map (fun x => if x.id = id then Log.mergePatch ex c else x) := by
      rw [Log.put_replace (Log.get_some_mem hex) ((Log.get_some_id hex).trans hmid.symm),
        hmid]
    refine ⟨?_, ?_, ?_⟩
    · unfold Log.update
      rw [hex]
    · rw [hput]
      exact Log.get_map_replace_self hmid hex
    · intro j hj
      rw [hput]
      exact Log.get_map_replace_other hmid hj
  · intro e c
    exact ⟨rfl, rfl, rfl, rfl, rfl, rfl, rfl, rfl, rfl, rfl, rfl, rfl, rfl, rfl⟩

/-- C9, counterexample to the claim quantified over all changes: `changes`
carrying an `id` key leaves the addressed incident entirely untouched and
appends a copy under the new key instead of replacing fields in place. -/
theorem C9_counterexample :
    Log.update [Log.incA] "a" Log.movePatch
        = Except.ok [Log.incA, { Log.incA with id := "b" }] ∧
      Log.get [Log.incA, { Log.incA with id := "b" }] "a" = some Log.incA :=
  ⟨rfl, rfl⟩

/-- C9, witness: the theorem applied at a missing id and at a present id
with an id-free letter patch. -/
theorem C9_witness :
    Log.update ([] : List Log.Incident) "zzz" Log.movePatch
        = Except.error ("Incident " ++ "zzz" ++ " not found") ∧
      Log.update [Log.incA] "a" (Log.letterPatch "L" "S")
        = Except.ok (Log.put [Log.incA]
            (Log.mergePatch Log.incA (Log.letterPatch "L" "S"))) :=
  ⟨C9_update.1 [] "zzz" Log.movePatch rfl,
    (C9_update.2.1 [Log.incA] "a" (Log.letterPatch "L" "S") Log.incA rfl rfl).1⟩

/-! ## Claim C10 -/

/-- C10: the caller's object is spread over the defaults, so a
caller-supplied `id`, `status`, `capturedAt` or `sarSentAt` replaces the
generated UUID, the `captured` status, the current timestamp, or the null
sent-time; the generated-id guarantee applies only to id-free inputs (an
input with an `id` key makes `add` return the caller's id); and a caller
can create an incident directly in status `sent`, as `markIncidentSent`
does. -/
theorem C10_add_spread :
    (∀ (genId nowIso : String) (p : Log.Patch),
        (Log.spreadAdd genId nowIso p).id = p.id.getD genId ∧
        (Log.spreadAdd genId nowIso p).status = p.status.getD "captured" ∧
        (Log.spreadAdd genId nowIso p).capturedAt = p.capturedAt.getD nowIso ∧
        (Log.spreadAdd genId nowIso p).sarSentAt = p.sarSentAt.getD none) ∧
      (∀ (genId nowIso x : String) (s : List Log.Incident) (p : Log.Patch),
        p.id = some x → (Log.add genId nowIso s p).2 = x) ∧
      (∀ genId nowIso : String,
        (Log.spreadAdd genId nowIso Log.sentAddPatch).status = "sent" ∧
        (Log.spreadAdd genId nowIso Log.sentAddPatch).sarSentAt ≠ none) := by
  refine ⟨fun genId nowIso p => ⟨rfl, rfl, rfl, rfl⟩, ?_,
    fun genId nowIso => ⟨rfl, fun h => Option.noConfusion h⟩⟩
  intro genId nowIso x s p h
  show p.id.getD genId = x
  rw [h]
  rfl

/-- C10, witness: an input carrying `id: 'b'` makes `add` return `b`, not
the generated UUID. -/
theorem C10_witness : (Log.add "uuid-9" "2024-01-01T00:00:00Z" [] Log.movePatch).2 = "b" :=
  C10_add_spread.2.1 "uuid-9" "2024-01-01T00:00:00Z" "b" [] Log.movePatch rfl

/-! ## Claim C3 -/

/-- C3, counterexample to "an entirely empty input does not throw":
`generateLetter({})` destructures `profile = undefined` and the unguarded
`profile.name` access throws a `TypeError`. -/
theorem C3_counterexample :
    Sar.generateLetter Sar.exampleCapture Sar.emptyArgs
      = Except.error "TypeError: Cannot read properties of undefined (reading name)" := rfl

set_option maxRecDepth 16000 in
/-- C3 (corrected): with a present-but-empty profile object and every
other field absent, `generateLetter` returns a non-empty letter in which
name, email, operator name, operator address, camera location, the
incident date/time and window, and the self-description all render as
bracketed placeholders; the missing ICO registration id renders as the
omission of its line, not a placeholder, and the sender's postal address
is not part of the letter at all.  With the profile itself absent the
function throws (see the counterexample). -/
theorem C3_empty_letter :
    Sar.generateLetter Sar.exampleCapture Sar.emptyProfileArgs
        = Except.ok Sar.emptyProfileLetter ∧
      Sar.emptyProfileLetter ≠ "" ∧
      Model.strContains Sar.emptyProfileLetter "[YOUR NAME]" = true ∧
      Model.strContains Sar.emptyProfileLetter "[YOUR EMAIL]" = true ∧
      Model.strContains Sar.emptyProfileLetter "[DATA CONTROLLER NAME]" = true ∧
      Model.strContains Sar.emptyProfileLetter "[DATA CONTROLLER ADDRESS]" = true ∧
      Model.strContains Sar.emptyProfileLetter "[CAMERA LOCATION]" = true ∧
      Model.strContains Sar.emptyProfileLetter "[DATE]" = true ∧
      Model.strContains Sar.emptyProfileLetter "[TIME]" = true ∧
      Model.strContains Sar.emptyProfileLetter "[FROM]" = true ∧
      Model.strContains Sar.emptyProfileLetter "[TO]" = true ∧
      Model.strContains Sar.emptyProfileLetter "[Please describe yourself here" = true ∧
      Model.strContains Sar.emptyProfileLetter "ICO Registration No" = false :=
  ⟨rfl, by decide, by decide, by decide, by decide, by decide, by decide, by decide,
    by decide, by decide, by decide, by decide, by decide⟩

/-! ## Claim C5 -/

set_option maxRecDepth 16000 in
/-- C5: the effective incident time is the explicit incident time when
provided, else the photo time, else the placeholder tokens render; with an
effective time, the requested window is that time minus 30 minutes to plus
30 minutes; and on the example capture `2024-03-01T14:32:00Z` (no explicit
incident time, UK civil time = UTC) the letter's window is
`14:02 – 15:02` with the date filled as `Friday 1 March 2024`, not left as
a placeholder. -/
theorem C5_time_window :
    (∀ (args : Sar.LetterArgs) (t : Sar.JSDate),
        args.incidentTime = some t → Sar.effectiveIncident args = some t) ∧
      (∀ args : Sar.LetterArgs, args.incidentTime = none →
        Sar.effectiveIncident args = args.photoTime) ∧
      (Sar.incidentDateStr none = "[DATE]" ∧ Sar.incidentTimeStr none = "[TIME]" ∧
        Sar.fromTimeStr none = "[FROM]" ∧ Sar.toTimeStr none = "[TO]") ∧
      (∀ d : Sar.JSDate,
        Sar.fromTimeStr (some d) = Sar.fmtTime ⟨d.ms - 30 * 60000⟩ ∧
        Sar.toTimeStr (some d) = Sar.fmtTime ⟨d.ms + 30 * 60000⟩) ∧
      (Sar.effectiveIncident Sar.exampleArgs = some Sar.exampleCapture ∧
        Sar.fromTimeStr (some Sar.exampleCapture) = "14:02" ∧
        Sar.toTimeStr (some Sar.exampleCapture) = "15:02" ∧
        Sar.incidentTimeStr (some Sar.exampleCapture) = "14:32" ∧
        Sar.incidentDateStr (some Sar.exampleCapture) = "Friday 1 March 2024" ∧
        Model.strContains Sar.exampleLetter "14:02 – 15:02" = true ∧
        Model.strContains Sar.exampleLetter "[DATE]" = false ∧
        Model.strContains Sar.exampleLetter "Friday 1 March 2024" = true) := by
  refine ⟨?_, ?_, ⟨rfl, rfl, rfl, rfl⟩, ?_,
    ⟨rfl, by decide, by decide, by decide, by decide, by decide, by decide, by decide⟩⟩
  · intro args t h
    unfold Sar.effectiveIncident
    rw [h]
  · intro args h
    unfold Sar.effectiveIncident
    rw [h]
  · intro d
    constructor
    · show Sar.fmtTime (Sar.addMinutes d (-30)) = _
      have h : Sar.addMinutes d (-30) = ⟨d.ms - 30 * 60000⟩ := by
        unfold Sar.addMinutes
        congr 1
      rw [h]
    · show Sar.fmtTime (Sar.addMinutes d 30) = _
      have h : Sar.addMinutes d 30 = ⟨d.ms + 30 * 60000⟩ := by
        unfold Sar.addMinutes
        congr 1
      rw [h]

/-- C5, witness: the effective-time selection at a concrete explicit
incident time and at the example arguments. -/
theorem C5_witness :
    Sar.effectiveIncident { incidentTime := some ⟨0⟩ } = some (⟨0⟩ : Sar.JSDate) ∧
      Sar.effectiveIncident Sar.exampleArgs = Sar.exampleArgs.photoTime :=
  ⟨C5_time_window.1 { incidentTime := some ⟨0⟩ } ⟨0⟩ rfl,
    C5_time_window.2.1 Sar.exampleArgs rfl⟩

/-! ## Claim C8 -/

/-- C8: `generateLetter` is deterministic and side-effect-free — as an
effectful call it leaves the world untouched, and two calls on worlds that
agree on the clock (the only ambient input the source reads, for the
`today` line) produce identical output for identical arguments, whatever
the storage contents. -/
theorem C8_deterministic :
    ∀ (w₁ w₂ : Sar.World) (args : Sar.LetterArgs), w₁.now = w₂.now →
      (Sar.generateLetterRun w₁ args).1 = (Sar.generateLetterRun w₂ args).1 ∧
        (Sar.generateLetterRun w₁ args).2 = w₁ ∧
        (Sar.generateLetterRun w₂ args).2 = w₂ := by
  intro w₁ w₂ args h
  unfold Sar.generateLetterRun
  rw [h]
  exact ⟨rfl, rfl, rfl⟩

/-- C8, witness: two worlds with the same clock but different storage
yield the identical letter and are left unchanged. -/
theorem C8_witness :
    (Sar.generateLetterRun ⟨Sar.exampleCapture, []⟩ Sar.exampleArgs).1
        = (Sar.generateLetterRun ⟨Sar.exampleCapture, [("sar_draft", "x")]⟩
            Sar.exampleArgs).1 ∧
      (Sar.generateLetterRun ⟨Sar.exampleCapture, []⟩ Sar.exampleArgs).2
        = ⟨Sar.exampleCapture, []⟩ :=
  ⟨(C8_deterministic ⟨Sar.exampleCapture, []⟩ ⟨Sar.exampleCapture, [("sar_draft", "x")]⟩
      Sar.exampleArgs rfl).1,
    (C8_deterministic ⟨Sar.exampleCapture, []⟩ ⟨Sar.exampleCapture, [("sar_draft", "x")]⟩
      Sar.exampleArgs rfl).2.1⟩
